import Mathlib

/-!
Verification of the Microsoft Graph UPN lookup utility
(`scripts/mggraph/utilities/msgraph_upn_lookup_cert.py`).

The development shallowly embeds the program's pure logic:

* external collaborators (the `cryptography` library, the MSAL token
  authority, the HTTP directory service) are modelled as explicit
  function parameters, so theorems quantify over their behaviour;
* the directory collaborator is a function of a call index, which lets a
  theorem observe that repeated queries for the same name may return
  different results (the real service is stateful);
* Python dictionaries are modelled as insertion-ordered association
  lists whose update keeps the original key position;
* fallible operations return `Except`/`Option` instead of raising.
-/

namespace MsGraphUpnLookup

/-! ## Directory records and HTTP responses -/

/-- A user record from the directory response's `value` array.  All
fields are optional: the source reads them with `user.get(field, default)`. -/
structure DirectoryRecord where
  userPrincipalName : Option String
  displayName : Option String
  givenName : Option String
  surname : Option String
  mail : Option String
  id : Option String
deriving DecidableEq, Repr

/-- The record with every field absent (used where the source would get
the per-field default from `dict.get`). -/
def emptyRecord : DirectoryRecord :=
  ⟨none, none, none, none, none, none⟩

/-- An HTTP response from the directory service, reduced to what
`search_user_by_name` inspects: the status code and the parsed JSON
body's optional `value` array (`data.get("value", [])`). -/
structure Response where
  statusCode : Nat
  value : Option (List DirectoryRecord)
deriving DecidableEq

/-- Embedding of `search_user_by_name` (source lines 162-187).  On status
200 it returns `data.get("value", [])`; on any other status it prints a
diagnostic and returns the empty list — no exception is raised. -/
def search_user_by_name (resp : Response) : List DirectoryRecord :=
  if resp.statusCode = 200 then resp.value.getD [] else []

/-! ## Query construction (source lines 171-177) -/

/-- The single-quote character, written via its code point. -/
def squote : String := String.singleton (Char.ofNat 39)

/-- Base URL constant `GRAPH_API_BASE` (source line 18). -/
def GRAPH_API_BASE : String := "https://graph.microsoft.com/v1.0"

/-- Embedding of the f-string
`f"givenName eq '{first_name}' and surname eq '{last_name}'"`
(source line 172).  The inputs are interpolated verbatim; no escaping. -/
def filter_query (first_name last_name : String) : String :=
  "givenName eq " ++ squote ++ first_name ++ squote ++
    " and surname eq " ++ squote ++ last_name ++ squote

/-- The `$select` list (source line 175). -/
def select_fields : String :=
  "userPrincipalName,displayName,givenName,surname,mail,id"

/-- The request URL (source line 177). -/
def request_url (first_name last_name : String) : String :=
  GRAPH_API_BASE ++ "/users?$filter=" ++ filter_query first_name last_name ++
    "&$select=" ++ select_fields

/-- Comma-join of a field list, used to state what `select_fields`
contains. -/
def commaJoin : List String → String
  | [] => ""
  | [x] => x
  | x :: xs => x ++ "," ++ commaJoin xs

/-! ## The report: an insertion-ordered mapping

`process_user_list` stores results in a Python `dict` keyed by
`f"{first_name} {last_name}"`.  A `dict` preserves insertion order and
an assignment to an existing key replaces the value while keeping the
key's original position.  We model it as an association list with an
in-place update. -/

/-- The aggregate report: keys in insertion order. -/
abbrev Report : Type := List (String × List DirectoryRecord)

/-- Python `results[key] = v`: replace in place if the key is present,
otherwise append at the end. -/
def upsert : Report → String → List DirectoryRecord → Report
  | [], k, v => [(k, v)]
  | (k', v') :: rest, k, v =>
    if k' = k then (k', v) :: rest else (k', v') :: upsert rest k v

/-- The loop body of `process_user_list` (source lines 198-219) over the
already-parsed `(first_name, last_name)` pairs.  The directory
collaborator `dir` takes the index of the call so that repeated queries
are distinguishable; the second result component counts the queries
issued. -/
def runBatch (dir : Nat → String → String → Response) :
    List (String × String) → Nat → Report → Report × Nat
  | [], n, r => (r, n)
  | (f, l) :: ks, n, r =>
    runBatch dir ks (n + 1) (upsert r (f ++ " " ++ l) (search_user_by_name (dir n f l)))

/-- Line parsing of `process_user_list` (source lines 196-204): split the
input into lines, split each line on the pipe character, strip, drop
empty parts, and keep lines with at least two parts. -/
def parseLine (line : String) : List String :=
  ((line.splitOn ("|")).map String.trim).filter (fun p => p ≠ "")

/-- All `(first_name, last_name)` pairs of the input text, in order. -/
def parseLines (users_data : String) : List (String × String) :=
  (users_data.trim.splitOn ("\n")).filterMap (fun line =>
    match parseLine line with
    | f :: l :: _ => some (f, l)
    | _ => none)

/-- Embedding of `process_user_list` (source lines 189-219): parse, then
query the directory once per parsed pair, aggregating into the report.
Also returns the number of directory queries issued. -/
def process_user_list (dir : Nat → String → String → Response)
    (users_data : String) : Report × Nat :=
  runBatch dir (parseLines users_data) 0 []

/-- The list of `(key, result)` pairs the batch produces, one per parsed
pair in order — the observation trace used to state properties of
`runBatch`. -/
def queryLog (dir : Nat → String → String → Response) :
    List (String × String) → Nat → List (String × List DirectoryRecord)
  | [], _ => []
  | (f, l) :: ks, n =>
    (f ++ " " ++ l, search_user_by_name (dir n f l)) :: queryLog dir ks (n + 1)

/-- Keep the first occurrence of every element, in order of first
appearance (used to state the key order of the report). -/
def firstDedup : List String → List String
  | [] => []
  | a :: as => a :: firstDedup (as.filter (fun b => b != a))
termination_by l => l.length
decreasing_by
  simp only [List.length_cons]
  exact Nat.lt_succ_of_le (List.length_filter_le _ _)

/-! ## Classification and the summary loop (source lines 319-338) -/

/-- The three-way outcome bucket. -/
inductive Classif
  | found
  | ambiguous
  | notFound
deriving DecidableEq, Repr

/-- The branch condition of `main`'s summary loop: `len(users) == 0`,
`len(users) == 1`, else. -/
def classOfUsers (users : List DirectoryRecord) : Classif :=
  if users.length = 0 then Classif.notFound
  else if users.length = 1 then Classif.found
  else Classif.ambiguous

/-- An element of `successful_lookups` (source lines 327-332). -/
structure SuccessItem where
  name : String
  upn : String
  email : String
  id : String
deriving DecidableEq, Repr

/-- An element of `multiple_matches` (source lines 334-338). -/
structure MultiItem where
  name : String
  count : Nat
  users : List DirectoryRecord
deriving DecidableEq, Repr

/-- The `successful_lookups` entry built from a report entry, reading
the single candidate's fields with default `"N/A"` exactly as
`users[0].get(field, "N/A")` does. -/
def mkSuccessItem (e : String × List DirectoryRecord) : SuccessItem :=
  ⟨e.1, ((e.2.headD emptyRecord).userPrincipalName).getD ("N/A"),
    ((e.2.headD emptyRecord).mail).getD ("N/A"),
    ((e.2.headD emptyRecord).id).getD ("N/A")⟩

/-- The `multiple_matches` entry built from a report entry. -/
def mkMultiItem (e : String × List DirectoryRecord) : MultiItem :=
  ⟨e.1, e.2.length, e.2⟩

/-- Embedding of `main`'s summary loop (source lines 319-338): walk the
report in insertion order and append each entry to one of the three
bucket lists according to its candidate count. -/
def summarize : Report → List SuccessItem × List MultiItem × List String
  | [] => ([], [], [])
  | e :: rest =>
    let s := summarize rest
    if e.2.length = 0 then (s.1, s.2.1, e.1 :: s.2.2)
    else if e.2.length = 1 then (mkSuccessItem e :: s.1, s.2.1, s.2.2)
    else (s.1, mkMultiItem e :: s.2.1, s.2.2)

/-! ## CSV export (source lines 362-378) -/

/-- The `Status` column value of a data row. -/
inductive RowStatus
  | found
  | multiple
  | notFound
deriving DecidableEq, Repr

/-- The literal text the source writes for each status
(`"Found"`, `"Multiple"`, `"Not Found"`). -/
def statusText : RowStatus → String
  | RowStatus.found => "Found"
  | RowStatus.multiple => "Multiple"
  | RowStatus.notFound => "Not Found"

/-- One CSV data row, before rendering. -/
structure Row where
  firstName : String
  lastName : String
  upn : String
  email : String
  userId : String
  status : RowStatus
deriving DecidableEq, Repr

/-- Python's `name.split(' ', 1)` on the underlying characters: split at
the first occurrence of the separator only. -/
def pySplit1 (sep : Char) : List Char → List (List Char)
  | [] => [[]]
  | c :: cs =>
    if c = sep then [[], cs]
    else
      match pySplit1 sep cs with
      | [] => [[c]]
      | x :: rest => (c :: x) :: rest

/-- `name.split(' ', 1)` as used on report keys (source lines 368, 372,
377). -/
def nameParts (name : String) : List String :=
  (pySplit1 ' ' name.data).map String.mk

/-- The CSV data rows, in the order the source writes them: all rows of
`successful_lookups`, then all rows of `multiple_matches` (one per
candidate), then all rows of `failed_lookups`.  `name_parts[1]` is read
with default `""`; every key produced by `process_user_list` contains a
space, so the index is always in range in the source. -/
def exportRows (report : Report) : List Row :=
  let s := summarize report
  (s.1.map (fun item =>
    let ps := nameParts item.name
    ⟨ps.headD (""), (ps.drop 1).headD (""), item.upn, item.email, item.id, RowStatus.found⟩))
  ++ ((s.2.1.map (fun item =>
    let ps := nameParts item.name
    item.users.map (fun u =>
      (⟨ps.headD (""), (ps.drop 1).headD (""), (u.userPrincipalName).getD ("N/A"),
        (u.mail).getD ("N/A"), (u.id).getD ("N/A"), RowStatus.multiple⟩ : Row)))).flatten)
  ++ (s.2.2.map (fun name =>
    let ps := nameParts name
    ⟨ps.headD (""), (ps.drop 1).headD (""), "", "", "", RowStatus.notFound⟩))

/-- The header line (source line 365). -/
def csvHeader : String := "First Name,Last Name,UPN,Email,User ID,Status\n"

/-- Rendering of one data row as the source's f-string writes it. -/
def renderRow (r : Row) : String :=
  r.firstName ++ "," ++ r.lastName ++ "," ++ r.upn ++ "," ++ r.email ++ "," ++
    r.userId ++ "," ++ statusText r.status ++ "\n"

/-- The full CSV export: header line then one rendered line per data
row. -/
def exportCSV (report : Report) : List String :=
  csvHeader :: (exportRows report).map renderRow

/-! ### Specification-side row builders

Used only to state properties of `exportRows`: the row(s) a report entry
contributes, built directly from the entry. -/

/-- The single `Found` row of an entry with exactly one candidate. -/
def foundRowOf (e : String × List DirectoryRecord) : Row :=
  let ps := nameParts e.1
  ⟨ps.headD (""), (ps.drop 1).headD (""),
    ((e.2.headD emptyRecord).userPrincipalName).getD ("N/A"),
    ((e.2.headD emptyRecord).mail).getD ("N/A"),
    ((e.2.headD emptyRecord).id).getD ("N/A"), RowStatus.found⟩

/-- The `Multiple` rows of an ambiguous entry: one row per candidate, in
candidate order. -/
def multiRowsOf (e : String × List DirectoryRecord) : List Row :=
  let ps := nameParts e.1
  e.2.map (fun u =>
    ⟨ps.headD (""), (ps.drop 1).headD (""), (u.userPrincipalName).getD ("N/A"),
      (u.mail).getD ("N/A"), (u.id).getD ("N/A"), RowStatus.multiple⟩)

/-- The single `NotFound` row of an entry with no candidates: empty
UPN/Email/UserID columns. -/
def notFoundRowOf (e : String × List DirectoryRecord) : Row :=
  let ps := nameParts e.1
  ⟨ps.headD (""), (ps.drop 1).headD (""), "", "", "", RowStatus.notFound⟩

/-! ## Credential loading (source lines 24-136)

`load_certificate` delegates all parsing and hashing to the
`cryptography` library; the library is modelled as a bundle of function
parameters (`CredLib`) so that theorems quantify over its behaviour.
Errors raised by the library are abstracted into the two kinds the
specification distinguishes. -/

/-- Abstract classification of an exception raised by the certificate
library: a parse/format failure, or a required/wrong-password failure. -/
inductive LoadErr
  | formatError
  | decryptError
deriving DecidableEq, Repr

/-- Hash algorithms that can parameterize `certificate.fingerprint`. -/
inductive HashAlg
  | sha1
  | sha256
deriving DecidableEq, Repr

/-- A parsed X.509 certificate, reduced to what the source reads: its
DER encoding (hashed for the thumbprint), its PEM re-encoding
(`public_bytes(Encoding.PEM)`), and its own signature hash algorithm
(`signature_hash_algorithm`). -/
structure Certificate where
  der : List Nat
  pem : String
  sigHashAlg : HashAlg
deriving DecidableEq, Repr

/-- A parsed private key, reduced to its unencrypted PKCS8 PEM
re-encoding (`private_bytes(PEM, PKCS8, NoEncryption())`). -/
structure PrivateKey where
  pkcs8Pem : String
deriving DecidableEq, Repr

/-- The certificate-library collaborators used by `load_certificate`.
`hash alg bytes` is the digest the library computes for
`certificate.fingerprint(alg)` over the DER bytes. -/
structure CredLib where
  hash : HashAlg → List Nat → List Nat
  load_pem_x509_certificate : List Nat → Except LoadErr Certificate
  load_pem_private_key : List Nat → Option String → Except LoadErr PrivateKey
  pkcs12_load : List Nat → Option String → Except LoadErr (PrivateKey × Certificate)

/-- Python `bytes.hex()`: two lowercase hex digits per byte. -/
def hexDigitChar (n : Nat) : Char :=
  if n < 10 then Char.ofNat (48 + n) else Char.ofNat (87 + n)

/-- Lowercase hex encoding of a byte sequence. -/
def hexEncode (bs : List Nat) : String :=
  String.mk (bs.flatMap (fun b => [hexDigitChar (b / 16 % 16), hexDigitChar (b % 16)]))

/-- The byte sequence of an ASCII marker string. -/
def markerBytes (s : String) : List Nat := s.data.map Char.toNat

/-- First index at which `pat` occurs in `hay` (Python `bytes.find`,
restricted to the found case). -/
def bfind : List Nat → List Nat → Option Nat
  | hay, pat =>
    if pat.isPrefixOf hay then some 0
    else
      match hay with
      | [] => none
      | _ :: t => (bfind t pat).map (· + 1)

/-- The delimiter scan of the combined-PEM fallback (source lines
109-111): slice from the `BEGIN CERTIFICATE` marker through the end of
the `END CERTIFICATE` marker.  When a marker is missing, Python's `find`
returns `-1` and the slice is garbage that the subsequent certificate
parse rejects; that case is modelled as the empty (unparsable) slice. -/
def extract_cert_block (cert_data : List Nat) : List Nat :=
  let beginMarker := markerBytes ("-----BEGIN CERTIFICATE-----")
  let endMarker := markerBytes ("-----END CERTIFICATE-----")
  match bfind cert_data beginMarker, bfind cert_data endMarker with
  | some s, some e => ((cert_data.drop s).take (e + endMarker.length - s))
  | _, _ => []

/-- The dictionary `load_certificate` returns (source lines 58-62,
95-99, 129-133). -/
structure Credential where
  private_key : String
  thumbprint : String
  public_certificate : String
deriving DecidableEq, Repr

/-- Embedding of `load_certificate` (source lines 24-136).

* Separate-key path (`key_path` given, lines 29-62): parse the cert
  file as a PEM certificate, parse the key file with the password,
  thumbprint = SHA-1 over the certificate's DER bytes.  Any library
  error propagates unchanged (there is no `try` on this path).
* Single-file path: first try PKCS#12 (lines 69-99, SHA-1 thumbprint).
  The bare `except:` on line 100 discards that failure — whatever its
  kind — and falls back to the combined-PEM strategy (lines 102-133),
  whose thumbprint uses the certificate's own signature hash algorithm
  (lines 125-127).  A failure of the fallback is re-raised as is
  (lines 134-136). -/
def load_certificate (lib : CredLib) (cert_data : List Nat)
    (cert_password : Option String) (key_data : Option (List Nat)) :
    Except LoadErr Credential :=
  match key_data with
  | some kd =>
    match lib.load_pem_x509_certificate cert_data with
    | Except.error e => Except.error e
    | Except.ok cert =>
      match lib.load_pem_private_key kd cert_password with
      | Except.error e => Except.error e
      | Except.ok key =>
        Except.ok ⟨key.pkcs8Pem, hexEncode (lib.hash HashAlg.sha1 cert.der), cert.pem⟩
  | none =>
    match lib.pkcs12_load cert_data cert_password with
    | Except.ok (key, cert) =>
      Except.ok ⟨key.pkcs8Pem, hexEncode (lib.hash HashAlg.sha1 cert.der), cert.pem⟩
    | Except.error _ =>
      match lib.load_pem_private_key cert_data cert_password with
      | Except.error e => Except.error e
      | Except.ok key =>
        match lib.load_pem_x509_certificate (extract_cert_block cert_data) with
        | Except.error e => Except.error e
        | Except.ok cert =>
          Except.ok ⟨key.pkcs8Pem, hexEncode (lib.hash cert.sigHashAlg cert.der), cert.pem⟩

/-! ## The run driver (source lines 221-385)

`main` wraps everything after argument handling in one `try`: a
credential-loading exception is caught by the handler on lines 382-385,
which prints the error and a traceback and falls through, and a token
failure prints and returns (lines 303-305).  `sys.exit` is never
called, so the process exit status is `0` on every path.  The token
authority (MSAL) is modelled as an opaque collaborator mapping the
credential to an optional access token, matching
`get_access_token_with_certificate`'s `Optional[str]` result. -/

/-- How a run ends, with the payload of the message it prints. -/
inductive RunOutcome
  | fatalCertError (e : LoadErr)
  | fatalTokenError
  | completed (report : Report)

/-- Embedding of `main`'s control flow after argument handling.  The
result is `(outcome, number of directory queries issued, process exit
status)`. -/
def main (lib : CredLib) (cert_data : List Nat) (cert_password : Option String)
    (key_data : Option (List Nat)) (tokenOf : Credential → Option String)
    (dir : Nat → String → String → Response) (users_data : String) :
    RunOutcome × Nat × Nat :=
  match load_certificate lib cert_data cert_password key_data with
  | Except.error e => (RunOutcome.fatalCertError e, 0, 0)
  | Except.ok cred =>
    match tokenOf cred with
    | none => (RunOutcome.fatalTokenError, 0, 0)
    | some _ =>
      let rn := process_user_list dir users_data
      (RunOutcome.completed rn.1, rn.2, 0)

/-! ## Helper lemmas about the summary and the export -/

lemma summarize_eq (report : Report) :
    summarize report =
      ((report.filter (fun e => e.2.length == 1)).map mkSuccessItem,
       (report.filter (fun e => decide (1 < e.2.length))).map mkMultiItem,
       (report.filter (fun e => e.2.length == 0)).map Prod.fst) := by
  induction report with
  | nil => rfl
  | cons e rest ih =>
    by_cases h0 : e.2.length = 0
    · simp [summarize, h0, ih, List.filter_cons]
    · by_cases h1 : e.2.length = 1
      · simp [summarize, h0, h1, ih, List.filter_cons]
      · have h2 : 1 < e.2.length := by omega
        simp [summarize, h0, h1, h2, ih, List.filter_cons]

lemma exportRows_eq (report : Report) :
    exportRows report =
      ((report.filter (fun e => e.2.length == 1)).map foundRowOf)
      ++ (((report.filter (fun e => decide (1 < e.2.length))).map multiRowsOf).flatten)
      ++ ((report.filter (fun e => e.2.length == 0)).map notFoundRowOf) := by
  unfold exportRows
  rw [summarize_eq]
  simp only [List.map_map]
  rfl

/-! ## Helper lemmas about the report mapping and the batch loop -/

lemma upsert_keys (r : Report) (k : String) (v : List DirectoryRecord) :
    (upsert r k v).map Prod.fst =
      if k ∈ r.map Prod.fst then r.map Prod.fst else r.map Prod.fst ++ [k] := by
  induction r with
  | nil => simp [upsert]
  | cons e rest ih =>
    obtain ⟨k', v'⟩ := e
    by_cases h : k' = k
    · subst h
      simp [upsert]
    · simp only [upsert, if_neg h, List.map_cons, ih]
      have hne : ¬ k = k' := fun hh => h hh.symm
      by_cases hm : k ∈ rest.map Prod.fst
      · simp [hm, hne]
      · simp [hm, hne]

lemma lookup_upsert (r : Report) (k : String) (v : List DirectoryRecord) (k' : String) :
    List.lookup k' (upsert r k v) =
      if k' = k then some v else List.lookup k' r := by
  induction r with
  | nil =>
    by_cases h : k' = k
    · simp [upsert, List.lookup, h]
    · have hb : (k' == k) = false := by simp [h]
      simp [upsert, List.lookup, h, hb]
  | cons e rest ih =>
    obtain ⟨a, b⟩ := e
    by_cases h : a = k
    · subst h
      by_cases h' : k' = a
      · simp [upsert, List.lookup, h']
      · have hb : (k' == a) = false := by simp [h']
        simp [upsert, List.lookup, h', hb]
    · by_cases h' : k' = a
      · subst h'
        simp [upsert, if_neg h, List.lookup, h]
      · have hba : (k' == a) = false := by simp [h']
        simp [upsert, if_neg h, List.lookup, hba, ih]

lemma lookup_append {β : Type} (k : String) (l₁ l₂ : List (String × β)) :
    List.lookup k (l₁ ++ l₂) = Option.or (List.lookup k l₁) (List.lookup k l₂) := by
  induction l₁ with
  | nil => simp [List.lookup]
  | cons e rest ih =>
    obtain ⟨a, b⟩ := e
    by_cases h : k = a
    · simp [List.lookup, h]
    · have hba : (k == a) = false := by simp [h]
      simp [List.lookup, hba, ih]

lemma runBatch_count (dir : Nat → String → String → Response) :
    ∀ (ks : List (String × String)) (n : Nat) (r : Report),
      (runBatch dir ks n r).2 = n + ks.length := by
  intro ks
  induction ks with
  | nil => intro n r; simp [runBatch]
  | cons e rest ih =>
    intro n r
    obtain ⟨f, l⟩ := e
    simp [runBatch, ih]
    omega

lemma queryLog_length (dir : Nat → String → String → Response) :
    ∀ (ks : List (String × String)) (n : Nat),
      (queryLog dir ks n).length = ks.length := by
  intro ks
  induction ks with
  | nil => intro n; simp [queryLog]
  | cons e rest ih =>
    intro n
    obtain ⟨f, l⟩ := e
    simp [queryLog, ih]

lemma lookup_runBatch (dir : Nat → String → String → Response) :
    ∀ (ks : List (String × String)) (n : Nat) (r : Report) (k : String),
      List.lookup k (runBatch dir ks n r).1 =
        Option.or (List.lookup k (queryLog dir ks n).reverse) (List.lookup k r) := by
  intro ks
  induction ks with
  | nil => intro n r k; simp [runBatch, queryLog, List.lookup]
  | cons e rest ih =>
    intro n r k
    obtain ⟨f, l⟩ := e
    have hrev : (queryLog dir ((f, l) :: rest) n).reverse =
        (queryLog dir rest (n + 1)).reverse ++
          [(f ++ " " ++ l, search_user_by_name (dir n f l))] := by
      simp [queryLog]
    rw [show runBatch dir ((f, l) :: rest) n r =
          runBatch dir rest (n + 1)
            (upsert r (f ++ " " ++ l) (search_user_by_name (dir n f l))) from rfl,
        ih, hrev, lookup_append, Option.or_assoc, lookup_upsert]
    by_cases h : k = f ++ " " ++ l
    · simp [List.lookup, h]
    · have hba : (k == f ++ " " ++ l) = false := by simp [h]
      simp [List.lookup, hba, h]

lemma firstDedup_cons (a : String) (as : List String) :
    firstDedup (a :: as) = a :: firstDedup (as.filter (fun b => b != a)) := by
  rw [firstDedup]

lemma runBatch_keys (dir : Nat → String → String → Response) :
    ∀ (ks : List (String × String)) (n : Nat) (r : Report),
      (runBatch dir ks n r).1.map Prod.fst =
        r.map Prod.fst ++ firstDedup (((queryLog dir ks n).map Prod.fst).filter
          (fun k => decide (k ∉ r.map Prod.fst))) := by
  intro ks
  induction ks with
  | nil => intro n r; simp [runBatch, queryLog, firstDedup]
  | cons e rest ih =>
    intro n r
    obtain ⟨f, l⟩ := e
    have hstep : runBatch dir ((f, l) :: rest) n r =
        runBatch dir rest (n + 1)
          (upsert r (f ++ " " ++ l) (search_user_by_name (dir n f l))) := rfl
    have hlog : (queryLog dir ((f, l) :: rest) n).map Prod.fst =
        (f ++ " " ++ l) :: (queryLog dir rest (n + 1)).map Prod.fst := by
      simp [queryLog]
    rw [hstep, ih, hlog, upsert_keys]
    by_cases hK : (f ++ " " ++ l) ∈ r.map Prod.fst
    · rw [if_pos hK, List.filter_cons,
        if_neg (by simp [hK] : ¬ decide ((f ++ " " ++ l) ∉ r.map Prod.fst) = true)]
    · have hdec : decide ((f ++ " " ++ l) ∉ r.map Prod.fst) = true := by simp [hK]
      rw [if_neg hK, List.filter_cons, if_pos hdec, firstDedup_cons,
        List.filter_filter, List.append_assoc, List.singleton_append]
      congr 2
      congr 1
      apply List.filter_congr
      intro k _
      by_cases h1 : k ∈ r.map Prod.fst
      · simp [h1]
      · by_cases h2 : k = f ++ " " ++ l
        · simp [h1, h2, bne]
        · simp [h1, h2, bne]

lemma mem_keys_upsert_self (r : Report) (k : String) (v : List DirectoryRecord) :
    k ∈ (upsert r k v).map Prod.fst := by
  rw [upsert_keys]
  by_cases h : k ∈ r.map Prod.fst
  · simp [h]
  · simp [h]

lemma mem_keys_upsert_mono (r : Report) (k0 : String) (v : List DirectoryRecord)
    (k : String) (h : k ∈ r.map Prod.fst) : k ∈ (upsert r k0 v).map Prod.fst := by
  rw [upsert_keys]
  by_cases h0 : k0 ∈ r.map Prod.fst
  · simp [h0, h]
  · simp [h0, List.mem_append, h]

lemma mem_keys_runBatch_mono (dir : Nat → String → String → Response) :
    ∀ (ks : List (String × String)) (n : Nat) (r : Report) (k : String),
      k ∈ r.map Prod.fst → k ∈ (runBatch dir ks n r).1.map Prod.fst := by
  intro ks
  induction ks with
  | nil => intro n r k h; simpa [runBatch] using h
  | cons e rest ih =>
    intro n r k h
    obtain ⟨f, l⟩ := e
    exact ih (n + 1) _ k (mem_keys_upsert_mono _ _ _ _ h)

lemma mem_keys_runBatch (dir : Nat → String → String → Response) :
    ∀ (ks : List (String × String)) (n : Nat) (r : Report) (fl : String × String),
      fl ∈ ks → (fl.1 ++ " " ++ fl.2) ∈ (runBatch dir ks n r).1.map Prod.fst := by
  intro ks
  induction ks with
  | nil => intro n r fl h; cases h
  | cons e rest ih =>
    intro n r fl h
    obtain ⟨f, l⟩ := e
    rcases List.mem_cons.mp h with h1 | h2
    · subst h1
      exact mem_keys_runBatch_mono dir rest (n + 1) _ _ (mem_keys_upsert_self _ _ _)
    · exact ih (n + 1) _ fl h2

/-! ## Claim theorems -/

/-- C1: the classification of a lookup key is a total function of the
candidate count alone — 0 candidates is NotFound, exactly 1 is Found,
more than 1 is Ambiguous — and `main`'s summary loop buckets every
report entry exactly according to that classification of its candidate
list. -/
theorem c1_classif_of_count :
    (∀ u₁ u₂ : List DirectoryRecord, u₁.length = u₂.length →
        classOfUsers u₁ = classOfUsers u₂)
    ∧ (∀ u : List DirectoryRecord,
        (u.length = 0 → classOfUsers u = Classif.notFound)
        ∧ (u.length = 1 → classOfUsers u = Classif.found)
        ∧ (1 < u.length → classOfUsers u = Classif.ambiguous))
    ∧ (∀ report : Report,
        summarize report =
          ((report.filter (fun e => decide (classOfUsers e.2 = Classif.found))).map mkSuccessItem,
           (report.filter (fun e => decide (classOfUsers e.2 = Classif.ambiguous))).map mkMultiItem,
           (report.filter (fun e => decide (classOfUsers e.2 = Classif.notFound))).map Prod.fst)) := by
  refine ⟨?_, ?_, ?_⟩
  · intro u₁ u₂ h
    simp [classOfUsers, h]
  · intro u
    refine ⟨?_, ?_, ?_⟩
    · intro h; simp [classOfUsers, h]
    · intro h; simp [classOfUsers, h]
    · intro h
      have h0 : ¬ u.length = 0 := by omega
      have h1 : ¬ u.length = 1 := by omega
      simp [classOfUsers, h0, h1]
  · intro report
    have hf : ∀ e : String × List DirectoryRecord,
        (e.2.length == 1) = decide (classOfUsers e.2 = Classif.found) := by
      intro e
      by_cases h0 : e.2.length = 0
      · simp [classOfUsers, h0]
      · by_cases h1 : e.2.length = 1
        · simp [classOfUsers, h0, h1]
        · simp [classOfUsers, h0, h1]
    have ha : ∀ e : String × List DirectoryRecord,
        (decide (1 < e.2.length)) = decide (classOfUsers e.2 = Classif.ambiguous) := by
      intro e
      by_cases h0 : e.2.length = 0
      · simp [classOfUsers, h0]
      · by_cases h1 : e.2.length = 1
        · simp [classOfUsers, h0, h1]
        · have h2 : 1 < e.2.length := by omega
          simp [classOfUsers, h0, h1, h2]
    have hn : ∀ e : String × List DirectoryRecord,
        (e.2.length == 0) = decide (classOfUsers e.2 = Classif.notFound) := by
      intro e
      by_cases h0 : e.2.length = 0
      · simp [classOfUsers, h0]
      · by_cases h1 : e.2.length = 1
        · simp [classOfUsers, h0, h1]
        · simp [classOfUsers, h0, h1]
    rw [summarize_eq, List.filter_congr (fun e _ => hf e),
      List.filter_congr (fun e _ => ha e), List.filter_congr (fun e _ => hn e)]

/-- Witness for C1 at concrete candidate lists of length 0, 1 and 2. -/
theorem c1_classif_of_count_witness :
    classOfUsers ([] : List DirectoryRecord) = Classif.notFound
    ∧ classOfUsers [emptyRecord] = Classif.found
    ∧ classOfUsers [emptyRecord, emptyRecord] = Classif.ambiguous :=
  ⟨(c1_classif_of_count.2.1 []).1 rfl,
   (c1_classif_of_count.2.1 [emptyRecord]).2.1 rfl,
   (c1_classif_of_count.2.1 [emptyRecord, emptyRecord]).2.2 (by decide)⟩

/-- C2: a directory query answered with a non-success HTTP status yields
zero candidates (classified NotFound), no exception escapes the batch
loop (`search_user_by_name` and `runBatch` are total functions), and
every key of the input — the failing one included — is present in the
resulting report. -/
theorem c2_non_success_non_fatal (dir : Nat → String → String → Response)
    (ks : List (String × String)) :
    (∀ (i : Nat) (f l : String), (dir i f l).statusCode ≠ 200 →
        search_user_by_name (dir i f l) = []
        ∧ classOfUsers (search_user_by_name (dir i f l)) = Classif.notFound)
    ∧ (∀ fl : String × String, fl ∈ ks →
        (fl.1 ++ " " ++ fl.2) ∈ (runBatch dir ks 0 []).1.map Prod.fst) := by
  constructor
  · intro i f l h
    constructor
    · simp [search_user_by_name, h]
    · simp [search_user_by_name, h, classOfUsers]
  · intro fl h
    exact mem_keys_runBatch dir ks 0 [] fl h

/-- A directory that rejects every query with HTTP 404. -/
def failingDir : Nat → String → String → Response := fun _ _ _ => ⟨404, none⟩

/-- Witness for C2: with a 404-answering directory and a three-key
input, the failing key yields no candidates, is classified NotFound, and
all three keys appear in the report. -/
theorem c2_non_success_non_fatal_witness :
    search_user_by_name (failingDir 0 ("Jack") ("McClean")) = []
    ∧ classOfUsers (search_user_by_name (failingDir 0 ("Jack") ("McClean")))
        = Classif.notFound
    ∧ ("Jack" ++ " " ++ "McClean") ∈
        (runBatch failingDir [("Jack", "McClean"), ("Paul", "Gray"), ("Rob", "Stoves")]
          0 []).1.map Prod.fst
    ∧ ("Paul" ++ " " ++ "Gray") ∈
        (runBatch failingDir [("Jack", "McClean"), ("Paul", "Gray"), ("Rob", "Stoves")]
          0 []).1.map Prod.fst
    ∧ ("Rob" ++ " " ++ "Stoves") ∈
        (runBatch failingDir [("Jack", "McClean"), ("Paul", "Gray"), ("Rob", "Stoves")]
          0 []).1.map Prod.fst := by
  have h := c2_non_success_non_fatal failingDir
    [("Jack", "McClean"), ("Paul", "Gray"), ("Rob", "Stoves")]
  exact ⟨(h.1 0 ("Jack") ("McClean") (by decide)).1,
    (h.1 0 ("Jack") ("McClean") (by decide)).2,
    h.2 ("Jack", "McClean") (by simp),
    h.2 ("Paul", "Gray") (by simp),
    h.2 ("Rob", "Stoves") (by simp)⟩

/-- C7: for every input key sequence (duplicates included) the batch
loop issues one directory query per occurrence (the query counter and
the query log have the input's length), the report keys are the queried
keys deduplicated to their first occurrence (first-insertion order),
and the value stored under each key is the result of the last
occurrence of that key — last-write-wins, visible here because the
directory collaborator may answer the two occurrences differently. -/
theorem c7_duplicate_keys (dir : Nat → String → String → Response)
    (ks : List (String × String)) :
    ((runBatch dir ks 0 []).2 = ks.length)
    ∧ ((queryLog dir ks 0).length = ks.length)
    ∧ ((runBatch dir ks 0 []).1.map Prod.fst
        = firstDedup ((queryLog dir ks 0).map Prod.fst))
    ∧ (∀ k : String, List.lookup k (runBatch dir ks 0 []).1
        = List.lookup k (queryLog dir ks 0).reverse) := by
  refine ⟨?_, queryLog_length dir ks 0, ?_, ?_⟩
  · simpa using runBatch_count dir ks 0 []
  · have h := runBatch_keys dir ks 0 []
    simpa using h
  · intro k
    have h := lookup_runBatch dir ks 0 [] k
    simpa [List.lookup] using h

/-- Sample record: the single match for Jack McClean. -/
def rec1 : DirectoryRecord :=
  ⟨some ("jack.mcclean@x.com"), some ("Jack McClean"), some ("Jack"),
    some ("McClean"), some ("jack.mcclean@x.com"), some ("1")⟩

/-- Sample record: first of two matches for Paul Gray. -/
def rec2 : DirectoryRecord :=
  ⟨some ("paul.gray@x.com"), some ("Paul Gray"), some ("Paul"),
    some ("Gray"), some ("paul.gray@x.com"), some ("2")⟩

/-- Sample record: second of two matches for Paul Gray. -/
def rec3 : DirectoryRecord :=
  ⟨some ("paul.gray2@x.com"), some ("Paul Gray"), some ("Paul"),
    some ("Gray"), some ("paul.gray2@x.com"), some ("3")⟩

/-- A report with one Found key, one Ambiguous key (2 candidates) and
one NotFound key, in that insertion order. -/
def c3ExampleReport : Report :=
  [("Jack McClean", [rec1]), ("Paul Gray", [rec2, rec3]), ("Rob Stoves", [])]

/-- C3: the export is a header line of the six fixed columns followed by
the data rows; per key there is exactly one Found row for a
single-candidate key, one Multiple row per candidate for an ambiguous
key, and one NotFound row (with empty UPN/Email/UserID) for an empty
key; every status is one of the three; and the example report with one
Found, one Ambiguous (2 candidates) and one NotFound key yields exactly
4 data rows with statuses Found, Multiple, Multiple, NotFound. -/
theorem c3_export_shape :
    (∀ report : Report,
      ((exportCSV report).headD ("") = csvHeader)
      ∧ ((exportRows report).countP (fun r => r.status == RowStatus.found)
          = report.countP (fun e => e.2.length == 1))
      ∧ ((exportRows report).countP (fun r => r.status == RowStatus.multiple)
          = ((report.filter (fun e => decide (1 < e.2.length))).map
              (fun e => e.2.length)).sum)
      ∧ ((exportRows report).countP (fun r => r.status == RowStatus.notFound)
          = report.countP (fun e => e.2.length == 0))
      ∧ (∀ r ∈ exportRows report, r.status = RowStatus.notFound →
          r.upn = "" ∧ r.email = "" ∧ r.userId = "")
      ∧ (∀ r ∈ exportRows report,
          r.status = RowStatus.found ∨ r.status = RowStatus.multiple
            ∨ r.status = RowStatus.notFound))
    ∧ (csvHeader =
        commaJoin ["First Name", "Last Name", "UPN", "Email", "User ID", "Status"]
          ++ "\n")
    ∧ ((exportRows c3ExampleReport).map Row.status
        = [RowStatus.found, RowStatus.multiple, RowStatus.multiple,
           RowStatus.notFound])
    ∧ ((exportRows c3ExampleReport).length = 4) := by
  refine ⟨?_, by decide, by decide, by decide⟩
  intro report
  refine ⟨rfl, ?_, ?_, ?_, ?_, ?_⟩
  · rw [exportRows_eq, List.countP_append, List.countP_append]
    have hA : List.countP (fun r => r.status == RowStatus.found)
        ((report.filter (fun e => e.2.length == 1)).map foundRowOf)
        = (report.filter (fun e => e.2.length == 1)).length := by
      rw [List.countP_map]
      apply List.countP_eq_length.mpr
      intro e he
      rfl
    have hB : List.countP (fun r => r.status == RowStatus.found)
        (((report.filter (fun e => decide (1 < e.2.length))).map multiRowsOf).flatten)
        = 0 := by
      apply List.countP_eq_zero.mpr
      intro a ha
      obtain ⟨l, hl, hal⟩ := List.mem_flatten.mp ha
      obtain ⟨e, _, rfl⟩ := List.mem_map.mp hl
      obtain ⟨u, _, rfl⟩ := List.mem_map.mp hal
      simp
    have hC : List.countP (fun r => r.status == RowStatus.found)
        ((report.filter (fun e => e.2.length == 0)).map notFoundRowOf) = 0 := by
      apply List.countP_eq_zero.mpr
      intro a ha
      obtain ⟨e, _, rfl⟩ := List.mem_map.mp ha
      simp [notFoundRowOf]
    rw [hA, hB, hC, List.countP_eq_length_filter]
    omega
  · rw [exportRows_eq, List.countP_append, List.countP_append]
    have hA : List.countP (fun r => r.status == RowStatus.multiple)
        ((report.filter (fun e => e.2.length == 1)).map foundRowOf) = 0 := by
      apply List.countP_eq_zero.mpr
      intro a ha
      obtain ⟨e, _, rfl⟩ := List.mem_map.mp ha
      simp [foundRowOf]
    have hB : List.countP (fun r => r.status == RowStatus.multiple)
        (((report.filter (fun e => decide (1 < e.2.length))).map multiRowsOf).flatten)
        = (((report.filter (fun e => decide (1 < e.2.length))).map multiRowsOf).flatten).length := by
      apply List.countP_eq_length.mpr
      intro a ha
      obtain ⟨l, hl, hal⟩ := List.mem_flatten.mp ha
      obtain ⟨e, _, rfl⟩ := List.mem_map.mp hl
      obtain ⟨u, _, rfl⟩ := List.mem_map.mp hal
      rfl
    have hC : List.countP (fun r => r.status == RowStatus.multiple)
        ((report.filter (fun e => e.2.length == 0)).map notFoundRowOf) = 0 := by
      apply List.countP_eq_zero.mpr
      intro a ha
      obtain ⟨e, _, rfl⟩ := List.mem_map.mp ha
      simp [notFoundRowOf]
    rw [hA, hB, hC, List.length_flatten, List.map_map]
    have : (List.length ∘ multiRowsOf) = fun e : String × List DirectoryRecord =>
        e.2.length := by
      funext e
      simp [multiRowsOf]
    rw [this]
    omega
  · rw [exportRows_eq, List.countP_append, List.countP_append]
    have hA : List.countP (fun r => r.status == RowStatus.notFound)
        ((report.filter (fun e => e.2.length == 1)).map foundRowOf) = 0 := by
      apply List.countP_eq_zero.mpr
      intro a ha
      obtain ⟨e, _, rfl⟩ := List.mem_map.mp ha
      simp [foundRowOf]
    have hB : List.countP (fun r => r.status == RowStatus.notFound)
        (((report.filter (fun e => decide (1 < e.2.length))).map multiRowsOf).flatten)
        = 0 := by
      apply List.countP_eq_zero.mpr
      intro a ha
      obtain ⟨l, hl, hal⟩ := List.mem_flatten.mp ha
      obtain ⟨e, _, rfl⟩ := List.mem_map.mp hl
      obtain ⟨u, _, rfl⟩ := List.mem_map.mp hal
      simp
    have hC : List.countP (fun r => r.status == RowStatus.notFound)
        ((report.filter (fun e => e.2.length == 0)).map notFoundRowOf)
        = (report.filter (fun e => e.2.length == 0)).length := by
      rw [List.countP_map]
      apply List.countP_eq_length.mpr
      intro e he
      rfl
    rw [hA, hB, hC, List.countP_eq_length_filter]
    omega
  · intro r hr hst
    rw [exportRows_eq] at hr
    rcases List.mem_append.mp hr with hr' | hrC
    · rcases List.mem_append.mp hr' with hrA | hrB
      · obtain ⟨e, _, rfl⟩ := List.mem_map.mp hrA
        cases hst
      · obtain ⟨l, hl, hal⟩ := List.mem_flatten.mp hrB
        obtain ⟨e, _, rfl⟩ := List.mem_map.mp hl
        obtain ⟨u, _, rfl⟩ := List.mem_map.mp hal
        cases hst
    · obtain ⟨e, _, rfl⟩ := List.mem_map.mp hrC
      exact ⟨rfl, rfl, rfl⟩
  · intro r hr
    rw [exportRows_eq] at hr
    rcases List.mem_append.mp hr with hr' | hrC
    · rcases List.mem_append.mp hr' with hrA | hrB
      · obtain ⟨e, _, rfl⟩ := List.mem_map.mp hrA
        exact Or.inl rfl
      · obtain ⟨l, hl, hal⟩ := List.mem_flatten.mp hrB
        obtain ⟨e, _, rfl⟩ := List.mem_map.mp hl
        obtain ⟨u, _, rfl⟩ := List.mem_map.mp hal
        exact Or.inr (Or.inl rfl)
    · obtain ⟨e, _, rfl⟩ := List.mem_map.mp hrC
      exact Or.inr (Or.inr rfl)

/-- Witness for C3 at the example report: the NotFound row of the
example has empty UPN, Email and UserID columns. -/
theorem c3_export_shape_witness :
    ((exportCSV c3ExampleReport).headD ("") = csvHeader)
    ∧ (((exportRows c3ExampleReport).getD 3 (notFoundRowOf (("Rob Stoves"), []))).upn = ""
        ∧ ((exportRows c3ExampleReport).getD 3 (notFoundRowOf (("Rob Stoves"), []))).email = ""
        ∧ ((exportRows c3ExampleReport).getD 3 (notFoundRowOf (("Rob Stoves"), []))).userId = "") := by
  have h := (c3_export_shape.1 c3ExampleReport)
  refine ⟨h.1, ?_⟩
  exact h.2.2.2.2.1 ((exportRows c3ExampleReport).getD 3 (notFoundRowOf (("Rob Stoves"), [])))
    (by decide) (by decide)

/-- A report whose first-inserted key "A B" has no candidates while the
later key "C D" has one candidate. -/
def c4Report : Report :=
  [("A B", []), ("C D", [rec1])]

/-- Counterexample to C4: export rows do NOT follow the report's key
insertion order.  In `c4Report` the key "A B" is inserted before "C D",
yet its (NotFound) row is written after the (Found) row of "C D",
because the source writes all `successful_lookups` rows first, then all
`multiple_matches` rows, then all `failed_lookups` rows. -/
theorem c4_counterexample :
    (c4Report.map Prod.fst = ["A B", "C D"])
    ∧ ((exportRows c4Report).map (fun r => (r.firstName, r.lastName, r.status))
        = [("C", "D", RowStatus.found), ("A", "B", RowStatus.notFound)]) := by
  constructor
  · rfl
  · decide

/-- C4 as amended: export rows are grouped by classification — all
Found rows, then all Multiple rows (one per candidate, in candidate
order), then all NotFound rows; only WITHIN each classification group do
rows follow the report's key insertion order (each group's key sequence
is a sublist of the report's key sequence). -/
theorem c4_export_grouped (report : Report) :
    (exportRows report =
      ((report.filter (fun e => e.2.length == 1)).map foundRowOf)
      ++ (((report.filter (fun e => decide (1 < e.2.length))).map multiRowsOf).flatten)
      ++ ((report.filter (fun e => e.2.length == 0)).map notFoundRowOf))
    ∧ (((report.filter (fun e => e.2.length == 1)).map Prod.fst).Sublist
        (report.map Prod.fst))
    ∧ (((report.filter (fun e => decide (1 < e.2.length))).map Prod.fst).Sublist
        (report.map Prod.fst))
    ∧ (((report.filter (fun e => e.2.length == 0)).map Prod.fst).Sublist
        (report.map Prod.fst)) :=
  ⟨exportRows_eq report,
   List.Sublist.map Prod.fst (List.filter_sublist report),
   List.Sublist.map Prod.fst (List.filter_sublist report),
   List.Sublist.map Prod.fst (List.filter_sublist report)⟩

/-- C8: the directory query is built from the literal
equality-conjunction filter with the input names interpolated verbatim
(unescaped — each name's character sequence occurs as-is in the filter,
quote characters included), and the field-selection list is exactly
userPrincipalName, displayName, givenName, surname, mail, id. -/
theorem c8_query_shape :
    (∀ first_name last_name : String,
      (filter_query first_name last_name).data =
        ("givenName eq ").data ++ squote.data ++ first_name.data ++ squote.data
          ++ (" and surname eq ").data ++ squote.data ++ last_name.data ++ squote.data)
    ∧ (∀ first_name last_name : String,
        List.IsInfix first_name.data (filter_query first_name last_name).data
        ∧ List.IsInfix last_name.data (filter_query first_name last_name).data)
    ∧ (select_fields =
        commaJoin ["userPrincipalName", "displayName", "givenName", "surname",
          "mail", "id"])
    ∧ (∀ first_name last_name : String,
        (request_url first_name last_name).data =
          GRAPH_API_BASE.data ++ ("/users?$filter=").data
            ++ (filter_query first_name last_name).data
            ++ ("&$select=").data ++ select_fields.data) := by
  refine ⟨?_, ?_, by decide, ?_⟩
  · intro f l
    simp [filter_query, String.data_append, List.append_assoc]
  · intro f l
    constructor
    · exact ⟨("givenName eq ").data ++ squote.data, squote.data
        ++ (" and surname eq ").data ++ squote.data ++ l.data ++ squote.data,
        by simp [filter_query, String.data_append, List.append_assoc]⟩
    · exact ⟨("givenName eq ").data ++ squote.data ++ f.data ++ squote.data
        ++ (" and surname eq ").data ++ squote.data, squote.data,
        by simp [filter_query, String.data_append, List.append_assoc]⟩
  · intro f l
    simp [request_url, String.data_append, List.append_assoc]

/-- C10: splitting a joined report key at the first space recovers the
original pair whenever the given name contains no space; in particular a
surname with spaces survives intact in the LastName column. -/
theorem c10_name_split_roundtrip (first_name last_name : String)
    (h : ∀ c ∈ first_name.data, c ≠ ' ') :
    nameParts (first_name ++ " " ++ last_name) = [first_name, last_name] := by
  have hdata : (first_name ++ " " ++ last_name).data =
      first_name.data ++ ' ' :: last_name.data := by
    simp [String.data_append]
  have hsplit : ∀ (xs : List Char), (∀ c ∈ xs, c ≠ ' ') →
      ∀ ys : List Char, pySplit1 ' ' (xs ++ ' ' :: ys) = [xs, ys] := by
    intro xs
    induction xs with
    | nil => intro _ ys; simp [pySplit1]
    | cons c cs ih =>
      intro hx ys
      have hc : ¬ c = ' ' := hx c (List.mem_cons_self c cs)
      have hcs : ∀ d ∈ cs, d ≠ ' ' := fun d hd => hx d (List.mem_cons_of_mem c hd)
      simp only [List.cons_append, pySplit1, if_neg hc, List.append_eq, ih hcs ys]
  rw [nameParts, hdata, hsplit first_name.data h last_name.data]
  rfl

/-- Witness for C10: the key built from "Alexandra" and the
space-containing surname "Van Heel" splits back into exactly that
pair. -/
theorem c10_name_split_roundtrip_witness :
    nameParts ("Alexandra" ++ " " ++ "Van Heel") = ["Alexandra", "Van Heel"] :=
  c10_name_split_roundtrip ("Alexandra") ("Van Heel") (by decide)

/-! ## Credential-loading and run-driver claims -/

lemma hexEncode_length (bs : List Nat) : (hexEncode bs).length = 2 * bs.length := by
  induction bs with
  | nil => rfl
  | cons b t ih =>
    have : hexEncode (b :: t) =
        String.mk ([hexDigitChar (b / 16 % 16), hexDigitChar (b % 16)]
          ++ (t.flatMap (fun b => [hexDigitChar (b / 16 % 16), hexDigitChar (b % 16)]))) := by
      simp [hexEncode]
    rw [this]
    have hlen : (String.mk (([hexDigitChar (b / 16 % 16), hexDigitChar (b % 16)]
        ++ (t.flatMap (fun b => [hexDigitChar (b / 16 % 16), hexDigitChar (b % 16)]))))).length
        = 2 + (hexEncode t).length := by
      simp [hexEncode, String.length]
      omega
    rw [hlen, ih]
    simp [List.length_cons]
    omega

lemma hexDigitChar_mem_digits (n : Nat) (h : n < 16) :
    hexDigitChar n ∈ ("0123456789abcdef").data := by
  interval_cases n <;> decide

lemma hexEncode_chars (bs : List Nat) :
    ∀ c ∈ (hexEncode bs).data, c ∈ ("0123456789abcdef").data := by
  intro c hc
  have hc' : c ∈ bs.flatMap
      (fun b => [hexDigitChar (b / 16 % 16), hexDigitChar (b % 16)]) := hc
  obtain ⟨b, _, hcb⟩ := List.mem_flatMap.mp hc'
  rcases List.mem_cons.mp hcb with h1 | h2
  · subst h1
    exact hexDigitChar_mem_digits _ (Nat.mod_lt _ (by omega))
  · have h1 : c = hexDigitChar (b % 16) := by simpa using h2
    subst h1
    exact hexDigitChar_mem_digits _ (Nat.mod_lt _ (by omega))

/-- C5 as amended: `load_certificate` is atomic (a full credential or an
error, never a partial result); on the separate-key-file path a
password/decrypt failure from the key parser propagates unchanged; but
on the single-file path the bare `except:` discards the PKCS#12
failure — whatever its kind, a wrong-password rejection included — and
the surfaced error is whatever the combined-PEM fallback raises
(typically a format error on PFX bytes), so a wrong password is NOT
reliably reported as a decrypt error distinct from a format error. -/
theorem c5_error_surfacing :
    (∀ (lib : CredLib) (cd : List Nat) (pw : Option String) (e₁ e₂ : LoadErr),
      lib.pkcs12_load cd pw = Except.error e₁ →
      lib.load_pem_private_key cd pw = Except.error e₂ →
      load_certificate lib cd pw none = Except.error e₂)
    ∧ (∀ (lib : CredLib) (cd kd : List Nat) (pw : Option String) (cert : Certificate),
        lib.load_pem_x509_certificate cd = Except.ok cert →
        lib.load_pem_private_key kd pw = Except.error LoadErr.decryptError →
        load_certificate lib cd pw (some kd) = Except.error LoadErr.decryptError)
    ∧ (∀ (lib : CredLib) (cd : List Nat) (pw : Option String) (kd : Option (List Nat)),
        (∃ cred, load_certificate lib cd pw kd = Except.ok cred)
        ∨ (∃ e, load_certificate lib cd pw kd = Except.error e)) := by
  refine ⟨?_, ?_, ?_⟩
  · intro lib cd pw e₁ e₂ h1 h2
    simp [load_certificate, h1, h2]
  · intro lib cd kd pw cert h1 h2
    simp [load_certificate, h1, h2]
  · intro lib cd pw kd
    cases h : load_certificate lib cd pw kd with
    | ok cred => exact Or.inl ⟨cred, rfl⟩
    | error e => exact Or.inr ⟨e, rfl⟩

/-- A certificate library as it behaves on a PFX file with a wrong
password: the PKCS#12 parser rejects the password (decrypt error) and
the PEM parsers reject the binary non-PEM bytes (format error). -/
def wrongPasswordPfxLib : CredLib where
  hash := fun _ _ => []
  load_pem_x509_certificate := fun _ => Except.error LoadErr.formatError
  load_pem_private_key := fun _ _ => Except.error LoadErr.formatError
  pkcs12_load := fun _ _ => Except.error LoadErr.decryptError

/-- Counterexample to C5: loading a PFX with a wrong password does NOT
fail with the decrypt error — the bare `except:` swallows the PKCS#12
decrypt failure and the combined-PEM fallback's format error is raised
instead. -/
theorem c5_counterexample :
    load_certificate wrongPasswordPfxLib [] (some ("wrongpassword")) none
        = Except.error LoadErr.formatError
    ∧ load_certificate wrongPasswordPfxLib [] (some ("wrongpassword")) none
        ≠ Except.error LoadErr.decryptError := by
  have h : load_certificate wrongPasswordPfxLib [] (some ("wrongpassword")) none
      = Except.error LoadErr.formatError := rfl
  refine ⟨h, ?_⟩
  rw [h]
  intro hh
  exact LoadErr.noConfusion (Except.error.inj hh)

/-- Witness for C5 (amended) at concrete library behaviours. -/
theorem c5_error_surfacing_witness :
    load_certificate wrongPasswordPfxLib [] (some ("wrongpassword")) none
        = Except.error LoadErr.formatError
    ∧ load_certificate
        { wrongPasswordPfxLib with
            load_pem_x509_certificate := fun _ => Except.ok ⟨[], "", HashAlg.sha1⟩,
            load_pem_private_key := fun _ _ => Except.error LoadErr.decryptError }
        [] (some ("wrongpassword")) (some [])
        = Except.error LoadErr.decryptError :=
  ⟨c5_error_surfacing.1 wrongPasswordPfxLib [] (some ("wrongpassword"))
      LoadErr.decryptError LoadErr.formatError rfl rfl,
   c5_error_surfacing.2.1
      { wrongPasswordPfxLib with
          load_pem_x509_certificate := fun _ => Except.ok ⟨[], "", HashAlg.sha1⟩,
          load_pem_private_key := fun _ _ => Except.error LoadErr.decryptError }
      [] [] (some ("wrongpassword")) ⟨[], "", HashAlg.sha1⟩ rfl rfl⟩

/-- C6: on the separate-key-file and PKCS#12 strategies the credential's
fingerprint is the lowercase hex SHA-1 over the certificate's DER bytes;
on the combined-PEM fallback strategy it instead uses the certificate's
own signature hash algorithm; and hex-encoding a standard 20-byte SHA-1
digest gives exactly 40 lowercase hexadecimal characters. -/
theorem c6_fingerprint :
    (∀ (lib : CredLib) (cd kd : List Nat) (pw : Option String)
        (cert : Certificate) (key : PrivateKey),
      lib.load_pem_x509_certificate cd = Except.ok cert →
      lib.load_pem_private_key kd pw = Except.ok key →
      load_certificate lib cd pw (some kd) =
        Except.ok ⟨key.pkcs8Pem, hexEncode (lib.hash HashAlg.sha1 cert.der), cert.pem⟩)
    ∧ (∀ (lib : CredLib) (cd : List Nat) (pw : Option String)
        (cert : Certificate) (key : PrivateKey),
        lib.pkcs12_load cd pw = Except.ok (key, cert) →
        load_certificate lib cd pw none =
          Except.ok ⟨key.pkcs8Pem, hexEncode (lib.hash HashAlg.sha1 cert.der), cert.pem⟩)
    ∧ (∀ (lib : CredLib) (cd : List Nat) (pw : Option String)
        (e : LoadErr) (cert : Certificate) (key : PrivateKey),
        lib.pkcs12_load cd pw = Except.error e →
        lib.load_pem_private_key cd pw = Except.ok key →
        lib.load_pem_x509_certificate (extract_cert_block cd) = Except.ok cert →
        load_certificate lib cd pw none =
          Except.ok ⟨key.pkcs8Pem, hexEncode (lib.hash cert.sigHashAlg cert.der), cert.pem⟩)
    ∧ (∀ bs : List Nat, bs.length = 20 →
        (hexEncode bs).length = 40
        ∧ ∀ c ∈ (hexEncode bs).data, c ∈ ("0123456789abcdef").data) := by
  refine ⟨?_, ?_, ?_, ?_⟩
  · intro lib cd kd pw cert key h1 h2
    simp [load_certificate, h1, h2]
  · intro lib cd pw cert key h1
    simp [load_certificate, h1]
  · intro lib cd pw e cert key h1 h2 h3
    simp [load_certificate, h1, h2, h3]
  · intro bs hlen
    refine ⟨?_, hexEncode_chars bs⟩
    rw [hexEncode_length, hlen]

/-- A fixed sample certificate whose own signature hash algorithm is
SHA-256 (so the fallback path is observably different from SHA-1). -/
def sampleCert : Certificate := ⟨[1, 2, 3], "SAMPLECERTPEM", HashAlg.sha256⟩

/-- A fixed sample private key. -/
def sampleKey : PrivateKey := ⟨"SAMPLEKEYPEM"⟩

/-- A certificate library on which every strategy succeeds, with hashes
of the standard digest lengths. -/
def happyLib : CredLib where
  hash := fun alg _ =>
    match alg with
    | HashAlg.sha1 => List.range 20
    | HashAlg.sha256 => List.range 32
  load_pem_x509_certificate := fun _ => Except.ok sampleCert
  load_pem_private_key := fun _ _ => Except.ok sampleKey
  pkcs12_load := fun _ _ => Except.ok (sampleKey, sampleCert)

/-- Witness for C6: on the PKCS#12 and separate-key strategies the
thumbprint is the hex of the library's SHA-1 digest (40 chars); on the
fallback strategy it is the hex of the certificate's own (SHA-256)
digest. -/
theorem c6_fingerprint_witness :
    load_certificate happyLib [] none none =
      Except.ok ⟨("SAMPLEKEYPEM"), hexEncode (List.range 20), ("SAMPLECERTPEM")⟩
    ∧ load_certificate happyLib [] none (some []) =
      Except.ok ⟨("SAMPLEKEYPEM"), hexEncode (List.range 20), ("SAMPLECERTPEM")⟩
    ∧ load_certificate
        { happyLib with pkcs12_load := fun _ _ => Except.error LoadErr.formatError }
        [] none none =
      Except.ok ⟨("SAMPLEKEYPEM"), hexEncode (List.range 32), ("SAMPLECERTPEM")⟩
    ∧ (hexEncode (List.range 20)).length = 40 := by
  refine ⟨?_, ?_, ?_, ?_⟩
  · exact c6_fingerprint.2.1 happyLib [] none sampleCert sampleKey rfl
  · exact c6_fingerprint.1 happyLib [] [] none sampleCert sampleKey rfl rfl
  · exact c6_fingerprint.2.2.1
      { happyLib with pkcs12_load := fun _ _ => Except.error LoadErr.formatError }
      [] none LoadErr.formatError sampleCert sampleKey rfl rfl rfl
  · exact (c6_fingerprint.2.2.2 (List.range 20) (by decide)).1

/-- Counterexample to C9: on a fatal credential-loading failure the run
does abort before any directory lookup (0 queries) and prints an error,
but the process exit status is 0, not non-zero — `main` catches the
exception, prints, and returns normally, and `sys.exit` is never
called. -/
theorem c9_counterexample :
    main wrongPasswordPfxLib [] (some ("wrongpassword")) none (fun _ => none)
        failingDir ("")
      = (RunOutcome.fatalCertError LoadErr.formatError, 0, 0) := rfl

/-- C9 as amended: a fatal error (credential-load failure or token
rejection) aborts the run before any directory lookup, with the error
reported in the outcome — but the process exit status is 0 on every
path, since the exception handler only prints and `sys.exit` is never
invoked. -/
theorem c9_fatal_aborts :
    (∀ (lib : CredLib) (cd : List Nat) (pw : Option String)
        (kd : Option (List Nat)) (tokenOf : Credential → Option String)
        (dir : Nat → String → String → Response) (ud : String) (e : LoadErr),
      load_certificate lib cd pw kd = Except.error e →
      main lib cd pw kd tokenOf dir ud = (RunOutcome.fatalCertError e, 0, 0))
    ∧ (∀ (lib : CredLib) (cd : List Nat) (pw : Option String)
        (kd : Option (List Nat)) (tokenOf : Credential → Option String)
        (dir : Nat → String → String → Response) (ud : String) (cred : Credential),
        load_certificate lib cd pw kd = Except.ok cred →
        tokenOf cred = none →
        main lib cd pw kd tokenOf dir ud = (RunOutcome.fatalTokenError, 0, 0)) := by
  constructor
  · intro lib cd pw kd tokenOf dir ud e h
    simp [main, h]
  · intro lib cd pw kd tokenOf dir ud cred h1 h2
    simp [main, h1, h2]

/-- Witness for C9 (amended) at concrete collaborators. -/
theorem c9_fatal_aborts_witness :
    main wrongPasswordPfxLib [] (some ("wrongpassword")) none (fun _ => none)
        failingDir ("")
      = (RunOutcome.fatalCertError LoadErr.formatError, 0, 0)
    ∧ main happyLib [] none none (fun _ => none) failingDir ("")
      = (RunOutcome.fatalTokenError, 0, 0) :=
  ⟨c9_fatal_aborts.1 wrongPasswordPfxLib [] (some ("wrongpassword")) none
      (fun _ => none) failingDir ("") LoadErr.formatError rfl,
   c9_fatal_aborts.2 happyLib [] none none (fun _ => none) failingDir ("")
      ⟨("SAMPLEKEYPEM"), hexEncode (List.range 20), ("SAMPLECERTPEM")⟩ rfl rfl⟩

end MsGraphUpnLookup
